import Mathlib

/-
Verification of the request security pipeline of the Digital Ledger
application (server/securityMiddleware.ts): input sanitization, CORS origin
validation, security headers, rate limiting and error normalization.

The string-rewriting rules of the sanitizer are the three JavaScript regex
replacements

  .replace(/<script\b[^<]*(?:(?!<\/script>)<[^<]*)*<\/script>/gi, '')
  .replace(/javascript:/gi, '')
  .replace(/on\w+\s*=/gi, '')

Each of these patterns matches deterministically (no backtracking can
produce a different match than greedy maximal munch), so a global
replacement is modelled as a left-to-right scan that at each position either
deletes a match and resumes after it, or keeps the character and moves on —
exactly the semantics of String.prototype.replace with a global regex and an
empty replacement string.
-/

namespace DigitalLedger

/-- JavaScript regex word character class \w = [A-Za-z0-9_] (ASCII). -/
def isWordChar (c : Char) : Bool :=
  c.isAlpha || c.isDigit || c == '_'

/-- JavaScript regex whitespace \s, restricted to the ASCII whitespace
characters (the Unicode members of \s never occur in the strings at issue). -/
def isSpaceChar (c : Char) : Bool :=
  c == ' ' || c == '\t' || c == '\n' || c == '\r' || c == '\x0b' || c == '\x0c'

/-- Case-insensitive check that `pat` is a leading segment of `l`
(the `i` flag of the source regexes; ASCII case folding). -/
def startsWithCI : List Char → List Char → Bool
  | [], _ => true
  | _ :: _, [] => false
  | p :: ps, c :: cs => p.toLower == c.toLower && startsWithCI ps cs

/-- Index of the first position of `l` at which `pat` starts
(case-insensitively), if any. -/
def findCI (pat : List Char) : List Char → Option Nat
  | [] => if pat.isEmpty then some 0 else none
  | c :: cs =>
    if startsWithCI pat (c :: cs) then some 0
    else (findCI pat cs).map (· + 1)

/-- Length of the match of /<script\b[^<]*(?:(?!<\/script>)<[^<]*)*<\/script>/i
at the head of `l`, if any: the literal `<script` (case-insensitive), a word
boundary (the next character, if any, is not a word character), then
everything up to and including the first subsequent `</script>`. The body
`[^<]*(?:(?!<\/script>)<[^<]*)*` consumes precisely the characters before
that first closing tag: every `<` strictly before it fails the lookahead test
and is swallowed by an iteration of the group, and no shorter or longer match
is reachable by backtracking. -/
def scriptMatchLen (l : List Char) : Option Nat :=
  if startsWithCI "<script".toList l then
    let rest := l.drop 7
    match rest with
    | [] => none
    | c :: _ =>
      if isWordChar c then none
      else
        match findCI "</script>".toList rest with
        | some j => some (7 + j + 9)
        | none => none
  else none

/-- Length of the match of /javascript:/i at the head of `l`, if any. -/
def javascriptMatchLen (l : List Char) : Option Nat :=
  if startsWithCI "javascript:".toList l then some 11 else none

/-- Length of the match of /on\w+\s*=/i at the head of `l`, if any: `on`
(case-insensitive), a maximal nonempty run of word characters, a maximal run
of whitespace, then `=`. Backtracking into the maximal runs cannot succeed
(a shorter \w+ leaves a word character where \s* or `=` must match, a
shorter \s* leaves a whitespace character where `=` must match), so maximal
munch is the regex's semantics. -/
def onWordMatchLen (l : List Char) : Option Nat :=
  if startsWithCI "on".toList l then
    let rest := l.drop 2
    let w := (rest.takeWhile isWordChar).length
    if w = 0 then none
    else
      let rest2 := rest.drop w
      let s := (rest2.takeWhile isSpaceChar).length
      match rest2.drop s with
      | '=' :: _ => some (2 + w + s + 1)
      | _ => none
  else none

/-- Global replace-with-empty: scan left to right; at a position where the
pattern matches (the match is always nonempty for the three patterns above),
delete the match and resume immediately after it; otherwise keep the
character. `fuel` is an upper bound on the number of steps; it is
initialized to the length of the input, which suffices because every step
consumes at least one character. -/
def scanReplaceAux (matchLen : List Char → Option Nat) : Nat → List Char → List Char
  | _, [] => []
  | 0, l => l
  | fuel + 1, c :: cs =>
    match matchLen (c :: cs) with
    | some n => scanReplaceAux matchLen fuel (cs.drop (n - 1))
    | none => c :: scanReplaceAux matchLen fuel cs

/-- Global replacement of every match of `matchLen` by the empty string. -/
def scanReplace (matchLen : List Char → Option Nat) (l : List Char) : List Char :=
  scanReplaceAux matchLen l.length l

/-- String sanitizer `sanitizeString` of server/securityMiddleware.ts: the
three global regex replacements applied in source order. -/
def sanitizeString (s : String) : String :=
  ⟨scanReplace onWordMatchLen
    (scanReplace javascriptMatchLen
      (scanReplace scriptMatchLen s.toList))⟩

/-- Values of parsed request data (body, query, path parameters): the
JavaScript values that `sanitizeObject` dispatches on. `num` and `bool`
stand for the remaining primitive leaves (the `else` branch of the field
loop); `null` is the value for which `obj === null` short-circuits. -/
inductive JsonVal where
  | str (s : String)
  | num (n : Int)
  | bool (b : Bool)
  | null
  | arr (elems : List JsonVal)
  | obj (fields : List (String × JsonVal))

mutual

/-- Recursive sanitizer `sanitizeObject` of server/securityMiddleware.ts:
non-objects and null are returned unchanged, arrays are mapped over with
`sanitizeObject` itself (so a string element is returned by the first
early-return, untouched), and for a plain object each field is processed by
the body of the `for (const key in obj)` loop (`sanitizeValue` below). -/
def sanitizeObject : JsonVal → JsonVal
  | JsonVal.arr xs => JsonVal.arr (sanitizeElems xs)
  | JsonVal.obj fs => JsonVal.obj (sanitizeFields fs)
  | v => v

/-- `obj.map(sanitizeObject)` of the array branch. -/
def sanitizeElems : List JsonVal → List JsonVal
  | [] => []
  | x :: xs => sanitizeObject x :: sanitizeElems xs

/-- The `for (const key in obj)` loop of `sanitizeObject`: keys are kept in
order, each value is rewritten by `sanitizeValue`. -/
def sanitizeFields : List (String × JsonVal) → List (String × JsonVal)
  | [] => []
  | (k, v) :: fs => (k, sanitizeValue v) :: sanitizeFields fs

/-- The loop body: a string field goes through `sanitizeString`; a field of
`typeof === 'object'` (array, object or null) goes through `sanitizeObject`,
whose dispatch is unfolded one step here so that the recursion is
structurally decreasing; any other field is copied unchanged. -/
def sanitizeValue : JsonVal → JsonVal
  | JsonVal.str s => JsonVal.str (sanitizeString s)
  | JsonVal.arr xs => JsonVal.arr (sanitizeElems xs)
  | JsonVal.obj fs => JsonVal.obj (sanitizeFields fs)
  | v => v

end

/-- JavaScript `typeof v === 'object'`: true for arrays, plain objects and
null, false for the primitive leaves. -/
def isObjectTyped : JsonVal → Bool
  | JsonVal.arr _ => true
  | JsonVal.obj _ => true
  | JsonVal.null => true
  | _ => false

/-- Parsed data of an in-flight request, the three structures rewritten by
the `sanitizeInput` middleware. `none` models an absent (falsy) field, for
which the middleware's `if (req.body)` guard skips the rewrite. -/
structure RequestData where
  body : Option JsonVal
  query : Option JsonVal
  params : Option JsonVal

/-- Middleware `sanitizeInput`: rewrite body, query and params in place. -/
def sanitizeInput (r : RequestData) : RequestData :=
  { body := r.body.map sanitizeObject
    query := r.query.map sanitizeObject
    params := r.params.map sanitizeObject }

/-- Split of an optional environment variable: `process.env.X?.split(',') || []`.
An unset variable yields the empty list; a set variable is split on commas
(String.splitOn agrees with JavaScript String.prototype.split for a
single-character nonempty separator). -/
def splitCommas : Option String → List String
  | none => []
  | some s => s.splitOn ","

/-- Exact (case-sensitive) check that `pat` is a leading segment of `l`. -/
def startsWithChars : List Char → List Char → Bool
  | [], _ => true
  | _ :: _, [] => false
  | p :: ps, c :: cs => p == c && startsWithChars ps cs

/-- Occurrence of `pat` anywhere in `l`. -/
def containsSubAux (pat : List Char) : List Char → Bool
  | [] => pat.isEmpty
  | c :: cs => startsWithChars pat (c :: cs) || containsSubAux pat cs

/-- JavaScript `hay.includes(needle)`: substring containment. -/
def containsSubstring (hay needle : String) : Bool :=
  containsSubAux needle.toList hay.toList

/-- The origin allowlist of `setupCORS`, assembled from the REPLIT_DOMAINS
and ALLOWED_ORIGINS environment variables plus the two fixed localhost
entries, flattened and filtered by truthiness (which drops empty strings). -/
def allowedOriginsList (replitDomains allowedOriginsVar : Option String) : List String :=
  (splitCommas replitDomains ++ splitCommas allowedOriginsVar ++
    ["http://localhost:5000", "http://localhost:5173"]).filter (fun s => s != "")

/-- Outcome of the `origin` callback of the CORS options: `allow` models
`callback(null, true)`, `deny` models `callback(new Error('Not allowed by CORS'))`,
which the error normalizer turns into a rejected request. -/
inductive CorsDecision where
  | allow
  | deny
deriving DecidableEq

/-- The `origin` function of the `corsOptions` in `setupCORS`. The `!origin`
early return fires for an absent header and also for an empty-string origin
(both are falsy). In production the request is allowed exactly when some
allowlist entry is a substring of the origin (`origin.includes(allowed)`);
otherwise the code allows when the origin contains `localhost` or matches the
allowlist — and also allows in the remaining case, mirroring the source's
`callback(null, true)` in both branches. -/
def corsOriginCheck (production : Bool) (replitDomains allowedOriginsVar : Option String)
    (origin : Option String) : CorsDecision :=
  match origin with
  | none => CorsDecision.allow
  | some o =>
    if o = "" then CorsDecision.allow
    else
      let allowedOrigins := allowedOriginsList replitDomains allowedOriginsVar
      if production then
        if allowedOrigins.any (fun allowed => containsSubstring o allowed) then
          CorsDecision.allow
        else
          CorsDecision.deny
      else
        if containsSubstring o "localhost" ||
            allowedOrigins.any (fun allowed => containsSubstring o allowed) then
          CorsDecision.allow
        else
          CorsDecision.allow

/-- Modelled from the spec: the `cors` package (an external library, not part
of this repository's sources) reflects the request's Origin header into the
Access-Control-Allow-Origin response header whenever the configured origin
callback reports the request allowed; on a denied or origin-less request the
header is not set to the caller's origin. -/
def corsAllowOriginHeader (production : Bool) (replitDomains allowedOriginsVar : Option String)
    (origin : Option String) : Option String :=
  match origin with
  | none => none
  | some o =>
    if corsOriginCheck production replitDomains allowedOriginsVar (some o) = CorsDecision.allow
    then some o
    else none

/-- HSTS settings of the helmet configuration. -/
structure HstsConfig where
  maxAge : Nat
  includeSubDomains : Bool
  preload : Bool
deriving DecidableEq

/-- Content-Security-Policy directives of the helmet configuration.
`upgradeInsecureRequests = some []` models the directive being present with
the empty argument list `[]`; `none` models the JavaScript `null`, which
omits the directive. -/
structure CspDirectives where
  defaultSrc : List String
  scriptSrc : List String
  styleSrc : List String
  imgSrc : List String
  fontSrc : List String
  connectSrc : List String
  mediaSrc : List String
  objectSrc : List String
  frameSrc : List String
  upgradeInsecureRequests : Option (List String)
deriving DecidableEq

/-- The helmet options object of `setupSecurityHeaders`, applied by
`app.use` to every request of the application. -/
structure HelmetConfig where
  contentSecurityPolicy : CspDirectives
  crossOriginEmbedderPolicy : Bool
  crossOriginResourcePolicy : String
  hsts : HstsConfig
  noSniff : Bool
  xssFilter : Bool
  referrerPolicy : String
deriving DecidableEq

/-- `setupSecurityHeaders`: the configuration literal, whose only dependence
on the environment is the ternary on NODE_ENV for `upgradeInsecureRequests`. -/
def helmetConfig (production : Bool) : HelmetConfig :=
  { contentSecurityPolicy :=
      { defaultSrc := ["'self'"]
        scriptSrc := ["'self'", "'unsafe-inline'", "'unsafe-eval'",
                      "https://storage.googleapis.com"]
        styleSrc := ["'self'", "'unsafe-inline'", "https://fonts.googleapis.com"]
        imgSrc := ["'self'", "data:", "blob:", "https:", "http:",
                   "https://storage.googleapis.com"]
        fontSrc := ["'self'", "data:", "https://fonts.gstatic.com"]
        connectSrc := ["'self'", "https://storage.googleapis.com", "wss:", "ws:"]
        mediaSrc := ["'self'", "https://storage.googleapis.com", "blob:"]
        objectSrc := ["'none'"]
        frameSrc := ["'self'"]
        upgradeInsecureRequests := if production then some [] else none }
    crossOriginEmbedderPolicy := false
    crossOriginResourcePolicy := "cross-origin"
    hsts := { maxAge := 31536000, includeSubDomains := true, preload := true }
    noSniff := true
    xssFilter := true
    referrerPolicy := "strict-origin-when-cross-origin" }

/-- An error reaching the global error handler: an optional numeric `status`
field, a `message` and an optional `stack`. -/
structure JsError where
  status : Option Nat
  message : String
  stack : Option String

/-- Body of an error response. `stack = none` models the `stack` key being
absent from the JSON payload (an `undefined` field is dropped by
serialization). -/
structure ErrorBody where
  message : String
  stack : Option String
deriving DecidableEq

/-- An error response: HTTP status plus JSON body. -/
structure ErrorResponse where
  status : Nat
  body : ErrorBody
deriving DecidableEq

/-- JavaScript `x || d` for an optional numeric field: the default is used
when the field is absent and also when it is 0 (both falsy). -/
def jsNumOrElse (x : Option Nat) (d : Nat) : Nat :=
  match x with
  | some v => if v = 0 then d else v
  | none => d

/-- JavaScript `s || d` for a string: the default is used when `s` is the
empty string (falsy). -/
def jsStrOrElse (s d : String) : String :=
  if s = "" then d else s

/-- Global error handler of `setupErrorHandler`: in production a 429-status
error gets the fixed rate-limit message and any other error gets the fixed
generic message with status `err.status || 500`; outside production the
response carries the error's own message (with an "Internal server error"
fallback) and its stack. -/
def errorHandler (production : Bool) (err : JsError) : ErrorResponse :=
  if production then
    if err.status = some 429 then
      { status := 429
        body := { message := "Too many requests, please try again later.", stack := none } }
    else
      { status := jsNumOrElse err.status 500
        body := { message := "An error occurred. Please try again later.", stack := none } }
  else
    { status := jsNumOrElse err.status 500
      body := { message := jsStrOrElse err.message "Internal server error"
                stack := err.stack } }

/-- Configuration record passed to `rateLimit(...)` for one limiter. -/
structure RateLimitConfig where
  windowMs : Nat
  maxHits : Nat
  message : String
  skipSuccessfulRequests : Bool
deriving DecidableEq

/-- General API limiter (`apiLimiter`): 1000 requests per 15 minutes. The
source additionally passes a `skip` predicate exempting the health-check
paths, not modelled here (no claim depends on it). -/
def apiLimiter : RateLimitConfig :=
  { windowMs := 15 * 60 * 1000
    maxHits := 1000
    message := "Too many requests from this IP, please try again later."
    skipSuccessfulRequests := false }

/-- Login limiter (`authLimiter`): 5 attempts per 15 minutes, with
`skipSuccessfulRequests: true` so successful authentications are not counted. -/
def authLimiter : RateLimitConfig :=
  { windowMs := 15 * 60 * 1000
    maxHits := 5
    message := "Too many login attempts from this IP, please try again after 15 minutes."
    skipSuccessfulRequests := true }

/-- Registration limiter (`registerLimiter`): 3 attempts per hour. -/
def registerLimiter : RateLimitConfig :=
  { windowMs := 60 * 60 * 1000
    maxHits := 3
    message := "Too many accounts created from this IP, please try again after an hour."
    skipSuccessfulRequests := false }

/-- Password-change limiter (`passwordChangeLimiter`): 5 per 15 minutes. -/
def passwordChangeLimiter : RateLimitConfig :=
  { windowMs := 15 * 60 * 1000
    maxHits := 5
    message := "Too many password change attempts, please try again later."
    skipSuccessfulRequests := false }

/-- Route prefixes to which `setupRateLimiting` attaches each limiter. -/
def rateLimitRoutes : List (String × RateLimitConfig) :=
  [("/api/", apiLimiter),
   ("/api/auth/login", authLimiter),
   ("/api/auth/register", registerLimiter),
   ("/api/auth/change-password", passwordChangeLimiter)]

/-- Authentication outcome of a request that reached its handler. -/
inductive Outcome where
  | success
  | failure
deriving DecidableEq

/-- Modelled from the spec: one step of the express-rate-limit middleware
(an external library, not part of this repository's sources) for a fixed
clientKey inside a single window. The incoming request increments the
counter; it is rejected with a 429 rate-limit error when the incremented
count exceeds `maxHits` (and then never reaches the handler); otherwise the
handler runs, and when `skipSuccessfulRequests` is set and the response
reports a successful outcome the counter is decremented again, so the
successful request does not count toward the limit. Returns the new counter
and whether the request was allowed through. -/
def limiterStep (cfg : RateLimitConfig) (count : Nat) (o : Outcome) : Nat × Bool :=
  let hits := count + 1
  if cfg.maxHits < hits then
    (hits, false)
  else if cfg.skipSuccessfulRequests && o == Outcome.success then
    (hits - 1, true)
  else
    (hits, true)

/-- Run of the limiter over a sequence of requests (their would-be outcomes)
from one clientKey within one window, returning which were allowed. -/
def limiterRun (cfg : RateLimitConfig) : Nat → List Outcome → List Bool
  | _, [] => []
  | count, o :: os =>
    let step := limiterStep cfg count o
    step.2 :: limiterRun cfg step.1 os

mutual

/-- Two values have the same structural shape, with every non-string leaf
equal and only string leaves free to differ: mappings have pointwise equal
keys in the same order, sequences have the same length with corresponding
elements related, and numbers, booleans and null are identical. -/
inductive SameShape : JsonVal → JsonVal → Prop where
  | str (s t : String) : SameShape (JsonVal.str s) (JsonVal.str t)
  | num (n : Int) : SameShape (JsonVal.num n) (JsonVal.num n)
  | bool (b : Bool) : SameShape (JsonVal.bool b) (JsonVal.bool b)
  | null : SameShape JsonVal.null JsonVal.null
  | arr (xs ys : List JsonVal) :
      SameShapeList xs ys → SameShape (JsonVal.arr xs) (JsonVal.arr ys)
  | obj (fs gs : List (String × JsonVal)) :
      SameShapeFields fs gs → SameShape (JsonVal.obj fs) (JsonVal.obj gs)

/-- Pointwise `SameShape` on sequences: same length, same element order. -/
inductive SameShapeList : List JsonVal → List JsonVal → Prop where
  | nil : SameShapeList [] []
  | cons (x y : JsonVal) (xs ys : List JsonVal) :
      SameShape x y → SameShapeList xs ys → SameShapeList (x :: xs) (y :: ys)

/-- Pointwise `SameShape` on mapping fields: equal keys in equal order,
related values. -/
inductive SameShapeFields : List (String × JsonVal) → List (String × JsonVal) → Prop where
  | nil : SameShapeFields [] []
  | cons (k : String) (v w : JsonVal) (fs gs : List (String × JsonVal)) :
      SameShape v w → SameShapeFields fs gs →
      SameShapeFields ((k, v) :: fs) ((k, w) :: gs)

end

/-- The nested mapping of the spec example for claim C1:
the raw input before sanitization. -/
def c1Example : JsonVal :=
  JsonVal.obj [("x", JsonVal.str "<script>alert(1)</script>hello")]

/-- A one-field mapping whose string value splices into a new `javascript:`
occurrence after the first removal pass. -/
def c1SplicedInput : JsonVal :=
  JsonVal.obj [("x", JsonVal.str "jajavascript:vascript:")]

/-- The nested mapping of the spec example for claim C2, with a dangerous
string sitting inside an array. -/
def c2Input : JsonVal :=
  JsonVal.obj [("a", JsonVal.obj [("b",
    JsonVal.arr [JsonVal.str "safe", JsonVal.str "javascript:alert(1)"])])]

/-- Check that unfolding `sanitizeObject` inside `sanitizeValue` was faithful:
on every value of `typeof === 'object'` (array, object, null) the two agree. -/
theorem sanitizeValue_eq_sanitizeObject (v : JsonVal) (h : isObjectTyped v = true) :
    sanitizeValue v = sanitizeObject v := by
  cases v with
  | arr xs => simp [sanitizeValue, sanitizeObject]
  | obj fs => simp [sanitizeValue, sanitizeObject]
  | null => simp [sanitizeValue, sanitizeObject]
  | str s => simp [isObjectTyped] at h
  | num n => simp [isObjectTyped] at h
  | bool b => simp [isObjectTyped] at h

theorem sanitizeObject_str (s : String) :
    sanitizeObject (JsonVal.str s) = JsonVal.str s := by
  simp [sanitizeObject]

theorem sanitizeObject_num (n : Int) :
    sanitizeObject (JsonVal.num n) = JsonVal.num n := by
  simp [sanitizeObject]

theorem sanitizeObject_bool (b : Bool) :
    sanitizeObject (JsonVal.bool b) = JsonVal.bool b := by
  simp [sanitizeObject]

theorem sanitizeObject_null :
    sanitizeObject JsonVal.null = JsonVal.null := by
  simp [sanitizeObject]

theorem sanitizeObject_arr (xs : List JsonVal) :
    sanitizeObject (JsonVal.arr xs) = JsonVal.arr (sanitizeElems xs) := by
  simp [sanitizeObject]

theorem sanitizeObject_obj (fs : List (String × JsonVal)) :
    sanitizeObject (JsonVal.obj fs) = JsonVal.obj (sanitizeFields fs) := by
  simp [sanitizeObject]

mutual

/-- The sanitizer preserves structural shape: output related to input by
`SameShape`. -/
theorem sanitizeObject_sameShape (v : JsonVal) : SameShape v (sanitizeObject v) := by
  cases v with
  | str s => rw [sanitizeObject_str]; exact SameShape.str s s
  | num n => rw [sanitizeObject_num]; exact SameShape.num n
  | bool b => rw [sanitizeObject_bool]; exact SameShape.bool b
  | null => rw [sanitizeObject_null]; exact SameShape.null
  | arr xs => rw [sanitizeObject_arr]; exact SameShape.arr xs _ (sanitizeElems_sameShape xs)
  | obj fs => rw [sanitizeObject_obj]; exact SameShape.obj fs _ (sanitizeFields_sameShape fs)

theorem sanitizeElems_sameShape (xs : List JsonVal) : SameShapeList xs (sanitizeElems xs) := by
  cases xs with
  | nil => rw [show sanitizeElems [] = [] from by simp [sanitizeElems]]; exact SameShapeList.nil
  | cons x xs =>
    rw [show sanitizeElems (x :: xs) = sanitizeObject x :: sanitizeElems xs from by
      simp [sanitizeElems]]
    exact SameShapeList.cons x _ xs _ (sanitizeObject_sameShape x) (sanitizeElems_sameShape xs)

theorem sanitizeFields_sameShape (fs : List (String × JsonVal)) :
    SameShapeFields fs (sanitizeFields fs) := by
  cases fs with
  | nil =>
    rw [show sanitizeFields [] = [] from by simp [sanitizeFields]]
    exact SameShapeFields.nil
  | cons f fs =>
    rw [show sanitizeFields (f :: fs) = (f.1, sanitizeValue f.2) :: sanitizeFields fs from by
      cases f; simp [sanitizeFields]]
    exact SameShapeFields.cons f.1 f.2 _ fs _ (sanitizeValue_sameShape f.2)
      (sanitizeFields_sameShape fs)

theorem sanitizeValue_sameShape (v : JsonVal) : SameShape v (sanitizeValue v) := by
  cases v with
  | str s =>
    rw [show sanitizeValue (JsonVal.str s) = JsonVal.str (sanitizeString s) from by
      simp [sanitizeValue]]
    exact SameShape.str s (sanitizeString s)
  | num n => rw [show sanitizeValue (JsonVal.num n) = JsonVal.num n from by simp [sanitizeValue]]
             exact SameShape.num n
  | bool b => rw [show sanitizeValue (JsonVal.bool b) = JsonVal.bool b from by simp [sanitizeValue]]
              exact SameShape.bool b
  | null => rw [show sanitizeValue JsonVal.null = JsonVal.null from by simp [sanitizeValue]]
            exact SameShape.null
  | arr xs =>
    rw [show sanitizeValue (JsonVal.arr xs) = JsonVal.arr (sanitizeElems xs) from by
      simp [sanitizeValue]]
    exact SameShape.arr xs _ (sanitizeElems_sameShape xs)
  | obj fs =>
    rw [show sanitizeValue (JsonVal.obj fs) = JsonVal.obj (sanitizeFields fs) from by
      simp [sanitizeValue]]
    exact SameShape.obj fs _ (sanitizeFields_sameShape fs)

end

/-- C1, counterexample: the sanitizer is not idempotent. Sanitizing the
mapping whose "x" field is "jajavascript:vascript:" removes the embedded
`javascript:` occurrence and thereby splices the surrounding fragments into
a fresh `javascript:`, which a second application removes; so applying the
sanitizer twice differs from applying it once. -/
theorem c1_idempotence_counterexample :
    sanitizeObject (sanitizeObject c1SplicedInput) ≠ sanitizeObject c1SplicedInput := by
  have h1 : sanitizeObject c1SplicedInput = JsonVal.obj [("x", JsonVal.str "javascript:")] := by
    simp [c1SplicedInput, sanitizeObject, sanitizeFields, sanitizeValue]
    rfl
  have h2 : sanitizeObject (JsonVal.obj [("x", JsonVal.str "javascript:")]) =
      JsonVal.obj [("x", JsonVal.str "")] := by
    simp [sanitizeObject, sanitizeFields, sanitizeValue]
    rfl
  rw [h1, h2]
  simp

/-- C1, as amended: on the spec's concrete example the claim holds —
sanitizing the mapping with "x" bound to
"<script>alert(1)</script>hello" yields the mapping with "x" bound to
"hello", and sanitizing that result again leaves it unchanged — but
idempotence does not hold for every input (see the counterexample). -/
theorem c1_example_sanitization_fixed_point :
    sanitizeObject c1Example = JsonVal.obj [("x", JsonVal.str "hello")]
    ∧ sanitizeObject (sanitizeObject c1Example) = sanitizeObject c1Example := by
  have h1 : sanitizeObject c1Example = JsonVal.obj [("x", JsonVal.str "hello")] := by
    simp [c1Example, sanitizeObject, sanitizeFields, sanitizeValue]
    rfl
  have h2 : sanitizeObject (JsonVal.obj [("x", JsonVal.str "hello")]) =
      JsonVal.obj [("x", JsonVal.str "hello")] := by
    simp [sanitizeObject, sanitizeFields, sanitizeValue]
    rfl
  exact ⟨h1, by rw [h1, h2]⟩

/-- C2: the code does not do what the claim (and the string-level rules)
require for strings inside arrays. Sanitizing the spec's example returns it
unchanged — the array branch maps `sanitizeObject` over the elements and
`sanitizeObject` returns a string argument untouched, so the dangerous
element "javascript:alert(1)" is kept verbatim — even though the string
sanitizer itself would rewrite that element to "alert(1)", which is the
output the claim demands. -/
theorem c2_array_element_not_sanitized :
    sanitizeObject c2Input = c2Input
    ∧ sanitizeString "javascript:alert(1)" = "alert(1)"
    ∧ sanitizeObject c2Input ≠
        JsonVal.obj [("a", JsonVal.obj [("b",
          JsonVal.arr [JsonVal.str "safe", JsonVal.str "alert(1)"])])] := by
  have h : sanitizeObject c2Input = c2Input := by
    simp [c2Input, sanitizeObject, sanitizeFields, sanitizeValue, sanitizeElems]
  refine ⟨h, rfl, ?_⟩
  rw [h]
  simp [c2Input]

/-- C3: in production the error normalizer's response is a function of the
error's status alone — two errors with equal status produce identical
responses — a 429-status error gets the fixed rate-limit body, any other
error gets the fixed generic body with its own status when one is present
(a nonzero status, matching the source's `err.status || 500` truthiness
test) and 500 otherwise, and no production response carries a stack field. -/
theorem c3_production_error_normalization :
    (∀ e₁ e₂ : JsError, e₁.status = e₂.status → errorHandler true e₁ = errorHandler true e₂)
    ∧ (∀ e : JsError, e.status = some 429 →
        errorHandler true e =
          { status := 429
            body := { message := "Too many requests, please try again later.", stack := none } })
    ∧ (∀ (e : JsError) (s : Nat), e.status = some s → s ≠ 0 → s ≠ 429 →
        errorHandler true e =
          { status := s
            body := { message := "An error occurred. Please try again later.", stack := none } })
    ∧ (∀ e : JsError, e.status = none →
        errorHandler true e =
          { status := 500
            body := { message := "An error occurred. Please try again later.", stack := none } })
    ∧ (∀ e : JsError, (errorHandler true e).body.stack = none) := by
  refine ⟨?_, ?_, ?_, ?_, ?_⟩
  · intro e₁ e₂ h
    simp only [errorHandler, jsNumOrElse]
    rw [h]
    simp
  · intro e h
    simp [errorHandler, h]
  · intro e s hs h0 h429
    simp [errorHandler, hs, jsNumOrElse, h0, h429]
  · intro e h
    simp [errorHandler, h, jsNumOrElse]
  · intro e
    by_cases h : e.status = some 429 <;> simp [errorHandler, h]

/-- C3 witness: concrete production responses for a 429 error, a 404 error
and a status-less error, each carrying a message and a stack that do not
leak into the response. -/
theorem c3_witness :
    errorHandler true { status := some 429, message := "boom", stack := some "trace" } =
      { status := 429
        body := { message := "Too many requests, please try again later.", stack := none } }
    ∧ errorHandler true { status := some 404, message := "missing", stack := some "trace" } =
      { status := 404
        body := { message := "An error occurred. Please try again later.", stack := none } }
    ∧ errorHandler true { status := none, message := "boom", stack := some "trace" } =
      { status := 500
        body := { message := "An error occurred. Please try again later.", stack := none } } :=
  ⟨c3_production_error_normalization.2.1 _ rfl,
   c3_production_error_normalization.2.2.1 _ 404 rfl (by decide) (by decide),
   c3_production_error_normalization.2.2.2.1 _ rfl⟩

/-- C4: in production, a request with a (nonempty) Origin header is allowed
exactly when some allowlist entry is a substring of the origin; any other
such request is answered with the CORS-class deny outcome; and on allow the
response echoes the request's origin in Access-Control-Allow-Origin. -/
theorem c4_production_origin_allowlist (rd av : Option String) (o : String) (ho : o ≠ "") :
    (corsOriginCheck true rd av (some o) = CorsDecision.allow ↔
      ∃ a ∈ allowedOriginsList rd av, containsSubstring o a = true)
    ∧ (corsOriginCheck true rd av (some o) ≠ CorsDecision.allow →
        corsOriginCheck true rd av (some o) = CorsDecision.deny)
    ∧ (corsOriginCheck true rd av (some o) = CorsDecision.allow →
        corsAllowOriginHeader true rd av (some o) = some o) := by
  have hcheck : corsOriginCheck true rd av (some o) =
      (if (allowedOriginsList rd av).any (fun allowed => containsSubstring o allowed)
        then CorsDecision.allow else CorsDecision.deny) := by
    simp [corsOriginCheck, ho]
  refine ⟨?_, ?_, ?_⟩
  · rw [hcheck]
    constructor
    · intro h
      by_cases hany : (allowedOriginsList rd av).any (fun a => containsSubstring o a) = true
      · exact List.any_eq_true.mp hany
      · rw [if_neg (by simp [hany])] at h
        exact absurd h (by simp)
    · intro hex
      rw [if_pos (List.any_eq_true.mpr hex)]
  · intro h
    cases hc : corsOriginCheck true rd av (some o) with
    | allow => exact absurd hc h
    | deny => rfl
  · intro h
    simp [corsAllowOriginHeader, h]

/-- C4 witness: with no environment configuration, the allowlisted origin
http://localhost:5000 is allowed in production and echoed back in the
Access-Control-Allow-Origin header. -/
theorem c4_witness :
    corsOriginCheck true none none (some "http://localhost:5000") = CorsDecision.allow
    ∧ corsAllowOriginHeader true none none (some "http://localhost:5000") =
        some "http://localhost:5000" := by
  have h := c4_production_origin_allowlist none none "http://localhost:5000" (by decide)
  have hex : ∃ a ∈ allowedOriginsList none none,
      containsSubstring "http://localhost:5000" a = true :=
    ⟨"http://localhost:5000", by decide, by decide⟩
  exact ⟨h.1.mpr hex, h.2.2 (h.1.mpr hex)⟩

/-- C5: for a fixed clientKey within one 15-minute window of the login
limiter (max 5, successful authentications not counted), six requests whose
first five are failed attempts end with the sixth rejected; while if exactly
one of the first five is a successful login, all six — the sixth included —
are allowed, the successful one not counting toward the limit of 5. -/
theorem c5_login_limiter_skips_successes :
    (∀ o : Outcome,
      limiterRun authLimiter 0
        [Outcome.failure, Outcome.failure, Outcome.failure, Outcome.failure, Outcome.failure, o] =
        [true, true, true, true, true, false])
    ∧ (∀ a b c d e o : Outcome,
        List.count Outcome.success [a, b, c, d, e] = 1 →
        limiterRun authLimiter 0 [a, b, c, d, e, o] =
          [true, true, true, true, true, true]) := by
  constructor
  · intro o
    cases o <;> rfl
  · intro a b c d e o h
    cases a <;> cases b <;> cases c <;> cases d <;> cases e <;> cases o <;>
      first | rfl | simp [List.count_cons] at h

/-- C5 witness: a successful login followed by five failed attempts — all
six requests pass the login limiter, the success having not counted. -/
theorem c5_witness :
    limiterRun authLimiter 0
      [Outcome.success, Outcome.failure, Outcome.failure, Outcome.failure, Outcome.failure,
        Outcome.failure] =
      [true, true, true, true, true, true] :=
  c5_login_limiter_skips_successes.2 Outcome.success Outcome.failure Outcome.failure
    Outcome.failure Outcome.failure Outcome.failure (by decide)

/-- C6: a request carrying no Origin header is allowed by the origin
validator in every mode and under every environment configuration. -/
theorem c6_no_origin_always_allowed (production : Bool) (rd av : Option String) :
    corsOriginCheck production rd av none = CorsDecision.allow := rfl

/-- C7: the sanitizer preserves structural shape — same keys in each
mapping in the same order, same length and element order in each sequence,
every non-string leaf unchanged; only string leaves may differ. -/
theorem c7_sanitizer_preserves_shape (v : JsonVal) : SameShape v (sanitizeObject v) :=
  sanitizeObject_sameShape v

/-- C8: in non-production mode the origin validator allows every request,
whatever its Origin header and whatever the allowlist configuration. -/
theorem c8_nonproduction_always_allows (rd av : Option String) (origin : Option String) :
    corsOriginCheck false rd av origin = CorsDecision.allow := by
  cases origin with
  | none => rfl
  | some o => by_cases ho : o = "" <;> simp [corsOriginCheck, ho]

/-- C9: the header policy sets HSTS with max-age 31536000 seconds,
includeSubDomains and preload in every mode; the CSP
upgrade-insecure-requests directive is present in the configuration exactly
when the mode is production; and MIME-sniffing protection, the XSS-filter
flag and the strict-origin-when-cross-origin referrer policy are
unconditional. -/
theorem c9_security_headers (production : Bool) :
    (helmetConfig production).hsts =
      { maxAge := 31536000, includeSubDomains := true, preload := true }
    ∧ ((helmetConfig production).contentSecurityPolicy.upgradeInsecureRequests).isSome = production
    ∧ (helmetConfig production).noSniff = true
    ∧ (helmetConfig production).xssFilter = true
    ∧ (helmetConfig production).referrerPolicy = "strict-origin-when-cross-origin" := by
  cases production <;> exact ⟨rfl, rfl, rfl, rfl, rfl⟩

/-- C10: whatever the environment configuration, the origin allowlist
contains the fixed development entries http://localhost:5000 and
http://localhost:5173, and in production any origin containing one of them
as a substring is allowed. -/
theorem c10_localhost_always_allowlisted (rd av : Option String) (o : String)
    (h : containsSubstring o "http://localhost:5000" = true ∨
         containsSubstring o "http://localhost:5173" = true) :
    "http://localhost:5000" ∈ allowedOriginsList rd av
    ∧ "http://localhost:5173" ∈ allowedOriginsList rd av
    ∧ corsOriginCheck true rd av (some o) = CorsDecision.allow := by
  have h1 : "http://localhost:5000" ∈ allowedOriginsList rd av := by
    refine List.mem_filter.mpr ⟨?_, by decide⟩
    simp
  have h2 : "http://localhost:5173" ∈ allowedOriginsList rd av := by
    refine List.mem_filter.mpr ⟨?_, by decide⟩
    simp
  refine ⟨h1, h2, ?_⟩
  by_cases ho : o = ""
  · subst ho
    rcases h with h | h <;> exact absurd h (by decide)
  · have hany : (allowedOriginsList rd av).any (fun a => containsSubstring o a) = true := by
      apply List.any_eq_true.mpr
      rcases h with h | h
      · exact ⟨_, h1, h⟩
      · exact ⟨_, h2, h⟩
    simp [corsOriginCheck, ho, hany]

/-- C10 witness: with no environment configuration, both localhost entries
are in the allowlist and the origin http://localhost:5000 is allowed in
production. -/
theorem c10_witness :
    "http://localhost:5000" ∈ allowedOriginsList none none
    ∧ "http://localhost:5173" ∈ allowedOriginsList none none
    ∧ corsOriginCheck true none none (some "http://localhost:5000") = CorsDecision.allow :=
  c10_localhost_always_allowlisted none none "http://localhost:5000" (Or.inl (by decide))

end DigitalLedger
